import Mathlib

/-!
Verification of the concurrent data-refresh and interactive selection engine
of `rshsl`, a terminal client for location search and itinerary polling.

The development shallowly embeds the two view modules:

* `src/get_location.rs` — the debounced search view: a render/input loop
  sharing an `input : String` buffer, a result store
  (`locations : LocationResponse`, i.e. a list of features) and a
  `tokio::sync::Notify` wake flag with one background task
  (`locations_task`), plus a `ListState` selection cursor.
* `src/get_itinerary.rs` — the itinerary view: a render/input loop sharing
  an itinerary list (`RwLock<Vec<_>>`) and an `AtomicBool` `updating` flag
  with one periodic background task (`itineraries_task`).

Pure key-handling logic is embedded as Lean functions; the concurrent parts
are embedded as labelled small-step transition systems over explicit state
records, one per view.  Each label is one atomic segment of code between two
suspension points of the task, or one render-loop event handler; a run is a
linearisation of the interleaved execution.  The stores carry a ghost
`version` counter, incremented exactly when the task overwrites the store,
so that store writes can be counted; the source has no such counter.
Task cancellation (`JoinHandle::abort`) is cooperative: the `abort` label
marks the instant cancellation takes effect, after which the scheduler runs
no further task step.
-/

/-- Result type of a fallible Rust code path: normal return `ok`, an
`anyhow` error carrying its message, or an index-out-of-bounds panic
(`Vec` indexing with `[]`). -/
inductive RustOutcome (α : Type) where
  | ok (a : α)
  | err (msg : String)
  | outOfBounds
  deriving DecidableEq, Repr

/-- `get_location.rs` lines 117–131, the `KeyCode::Up` handler: when the
feature list is non-empty, move the selection up with wraparound (from
index 0 to `len - 1`), an unselected cursor becomes index 0; when the list
is empty the selection is left unchanged. -/
def keyUp (selected : Option Nat) (len : Nat) : Option Nat :=
  if len = 0 then
    selected
  else
    some (match selected with
      | some i => if i = 0 then len - 1 else i - 1
      | none => 0)

/-- `get_location.rs` lines 133–148, the `KeyCode::Down` handler: when the
feature list is non-empty, move the selection down with wraparound
(`i >= len - 1` wraps to 0), an unselected cursor becomes index 0; when the
list is empty the selection is left unchanged. -/
def keyDown (selected : Option Nat) (len : Nat) : Option Nat :=
  if len = 0 then
    selected
  else
    some (match selected with
      | some i => if len - 1 ≤ i then 0 else i + 1
      | none => 0)

/-- `get_location.rs` lines 157–162, the code after the render loop breaks:
with a selection, index into the store's feature list (`features[selected]`
— a Rust `Vec` index that panics when out of bounds) and return the feature;
with no selection, return `Err(anyhow!("Missing location selection"))`. -/
def getLocationExit (selected : Option Nat) (features : List α) : RustOutcome α :=
  match selected with
  | some i =>
    match features.get? i with
    | some f => .ok f
    | none => .outOfBounds
  | none => .err "Missing location selection"

/-- Cooldown of the search task: `tokio::time::sleep(Duration::from_secs(1))`
at `get_location.rs` line 68, in seconds. -/
def cooldownSecs : Nat := 1

/-- Program counter of `locations_task` (`get_location.rs` lines 59–69),
one value per suspension point of the loop body:
`waitSignal` = blocked in `input_notify.notified().await`;
`readInput` = about to execute `input.read().await.clone()`;
`fetch q` = `get_locations(&client, q)` in flight with captured argument `q`;
`cooldown` = about to sleep the 1-second cooldown. -/
inductive SearchPC where
  | waitSignal
  | readInput
  | fetch (q : String)
  | cooldown
  deriving DecidableEq, Repr

/-- One atomic step of the search view, `α` being the feature type:
render-loop key handlers (`get_location.rs` lines 104–150), task steps
between suspension points, cancellation, and passage of time. -/
inductive SearchLabel (α : Type) where
  | keyChar (c : Char)
  | keyBackspace
  | keyUp
  | keyDown
  | keyEnter
  | wake
  | dispatch
  | fetchOk (r : List α)
  | fetchErr
  | sleepDone
  | abort
  | passTime (d : Nat)
  deriving DecidableEq, Repr

/-- State of the search view: `input` is the shared `RwLock<String>` buffer,
`notified` the stored permit of the `Notify` (a single permit, so rapid
`notify_one` calls coalesce), `features` the shared
`RwLock<LocationResponse>` store, `version` a ghost counter of store
overwrites, `selection` the render-local `ListState`, `pc` the task's
position, `aborted` whether cancellation has taken effect, `done` whether
the render loop has broken out, `log` the `tracing::info!` entries emitted
by the task, and `now` the clock in seconds. -/
structure SearchState (α : Type) where
  input : String
  notified : Bool
  features : List α
  version : Nat
  selection : Option Nat
  pc : SearchPC
  aborted : Bool
  done : Bool
  log : List (List α)
  now : Nat
  deriving DecidableEq, Repr

/-- The state of the search view right after `get_location` spawns
`locations_task`: empty input, empty store, no permit, no selection, task
about to wait for the first signal. -/
def initSearchState (α : Type) : SearchState α :=
  { input := "", notified := false, features := [], version := 0,
    selection := none, pc := .waitSignal, aborted := false, done := false,
    log := [], now := 0 }

/-- One labelled step of the search view; `none` when the label is not
enabled in the given state.  Translated from `get_location.rs`:
`keyChar`/`keyBackspace` edit the input and call `notify_one()`
(lines 107–116); `keyUp`/`keyDown` move the selection (lines 117–148);
`keyEnter` breaks the render loop (line 106); `wake` is the task consuming
the notify permit (line 60); `dispatch` is the task reading the current
input and issuing the request (lines 61–62); `fetchOk r` is a successful
response: log the result, overwrite the store (lines 63–67 — the failure
branch `fetchErr` does nothing, lines 62–67); `sleepDone` ends the
1-second cooldown sleep (line 68); `abort` is the instant
`locations_task.abort()` takes effect (line 155); `passTime` lets wall time
pass.  Task labels are disabled once `aborted`, key labels once `done`. -/
def searchStep (l : SearchLabel α) (s : SearchState α) : Option (SearchState α) :=
  match l with
  | .keyChar c =>
    if s.done then none else
      some { s with input := s.input.push c, notified := true }
  | .keyBackspace =>
    if s.done then none else
      some { s with input := s.input.dropRight 1, notified := true }
  | .keyUp =>
    if s.done then none else
      some { s with selection := keyUp s.selection s.features.length }
  | .keyDown =>
    if s.done then none else
      some { s with selection := keyDown s.selection s.features.length }
  | .keyEnter =>
    if s.done then none else some { s with done := true }
  | .wake =>
    if s.aborted then none else
      match s.pc with
      | .waitSignal => if s.notified then
          some { s with notified := false, pc := .readInput } else none
      | _ => none
  | .dispatch =>
    if s.aborted then none else
      match s.pc with
      | .readInput => some { s with pc := .fetch s.input }
      | _ => none
  | .fetchOk r =>
    if s.aborted then none else
      match s.pc with
      | .fetch _ =>
        some { s with log := s.log ++ [r], features := r,
                      version := s.version + 1, pc := .cooldown }
      | _ => none
  | .fetchErr =>
    if s.aborted then none else
      match s.pc with
      | .fetch _ => some { s with pc := .cooldown }
      | _ => none
  | .sleepDone =>
    if s.aborted then none else
      match s.pc with
      | .cooldown =>
        some { s with pc := .waitSignal, now := s.now + cooldownSecs }
      | _ => none
  | .abort => some { s with aborted := true }
  | .passTime d => some { s with now := s.now + d }

/-- Run a list of labels from a state, failing when a label is disabled. -/
def searchRun (ls : List (SearchLabel α)) (s : SearchState α) :
    Option (SearchState α) :=
  match ls with
  | [] => some s
  | l :: rest =>
    match searchStep l s with
    | some s1 => searchRun rest s1
    | none => none

/-- Recogniser for the `dispatch` label, used to count issued fetches. -/
def isDispatchL : SearchLabel α → Bool
  | .dispatch => true
  | _ => false

/-- Time credit of a task position: from `waitSignal` or `readInput` one
fetch can still be dispatched before the next cooldown sleep; from
`fetch`/`cooldown` the pending cooldown must elapse first. -/
def dispatchSlack : SearchPC → Nat
  | .waitSignal => cooldownSecs
  | .readInput => cooldownSecs
  | _ => 0

/-- Poll interval of the itinerary task:
`tokio::time::sleep(Duration::from_secs(60))` at `get_itinerary.rs`
line 119, in seconds. -/
def intervalSecs : Nat := 60

/-- Program counter of `itineraries_task` (`get_itinerary.rs` lines
92–122), one value per suspension point of the loop body:
`startCycle` = about to run the cycle prologue (`info!` + `updating := true`);
`inFlight` = `send().await?.json().await?` in flight;
`writeStore r` = decoded response `r` in hand, about to take the write lock;
`setIdle` = store written, about to clear `updating`;
`sleeping` = in the 60-second `sleep`;
`doneErr` = a `?` propagated a request or decode error out of the loop, the
task returned `Err` and is finished (`response.data.unwrap()` on a
malformed response likewise ends the task, by panic). -/
inductive ItinPC (β : Type) where
  | startCycle
  | inFlight
  | writeStore (r : List β)
  | setIdle
  | sleeping
  | doneErr
  deriving DecidableEq, Repr

/-- One atomic step of the itinerary view, `β` being the itinerary type. -/
inductive ItinLabel (β : Type) where
  | beginCycle
  | fetchOk (r : List β)
  | fetchErr
  | doWrite
  | idleDone
  | sleepDone
  | keyQuit
  | abort
  | passTime (d : Nat)
  deriving DecidableEq, Repr

/-- State of the itinerary view: `itineraries` is the shared
`RwLock<Vec<_>>` store, `version` a ghost counter of store overwrites,
`updating` the shared `AtomicBool` read by the render loop's status
indicator, `pc` the task's position, `aborted` whether cancellation has
taken effect, `done` whether the render loop has broken out (`q`/Esc),
`log` the `tracing::info!` entries, and `now` the clock in seconds. -/
structure ItinState (β : Type) where
  itineraries : List β
  version : Nat
  updating : Bool
  pc : ItinPC β
  aborted : Bool
  done : Bool
  log : List String
  now : Nat
  deriving DecidableEq, Repr

/-- The state of the itinerary view right after `get_itinerary` spawns
`itineraries_task`: empty store, `updating` false, the task entering its
loop body at once (no initial sleep). -/
def initItinState (β : Type) : ItinState β :=
  { itineraries := [], version := 0, updating := false, pc := .startCycle,
    aborted := false, done := false, log := [], now := 0 }

/-- The render loop's status paragraph (`get_itinerary.rs` line 151):
`"Updating..."` when the `updating` flag is set, `"Idle"` otherwise,
re-read from the flag on every frame. -/
def statusIndicator (updating : Bool) : String :=
  if updating then "Updating..." else "Idle"

/-- One labelled step of the itinerary view; `none` when the label is not
enabled.  Translated from `get_itinerary.rs`: `beginCycle` is the cycle
prologue `info!("Updating itineraries..."); updating.store(true)`
(lines 104–105); `fetchOk r` is the request and decode completing with
itineraries `r` (lines 106–113); `fetchErr` is a request or decode failure
— the `?` operators propagate it out of the `async` block, so the loop is
left and the task finishes with `Err` (lines 110–113); `doWrite` installs
the response in the store (line 115); `idleDone` clears the flag
(line 116); `sleepDone` ends the 60-second sleep (line 119); `keyQuit` is
the render loop breaking on `q`/Esc (lines 267–268); `abort` is the
instant `itineraries_task.abort()` takes effect (line 275); `passTime`
lets wall time pass. -/
def itinStep (l : ItinLabel β) (s : ItinState β) : Option (ItinState β) :=
  match l with
  | .beginCycle =>
    if s.aborted then none else
      match s.pc with
      | .startCycle =>
        some { s with log := s.log ++ ["Updating itineraries..."],
                      updating := true, pc := .inFlight }
      | _ => none
  | .fetchOk r =>
    if s.aborted then none else
      match s.pc with
      | .inFlight => some { s with pc := .writeStore r }
      | _ => none
  | .fetchErr =>
    if s.aborted then none else
      match s.pc with
      | .inFlight => some { s with pc := .doneErr }
      | _ => none
  | .doWrite =>
    if s.aborted then none else
      match s.pc with
      | .writeStore r =>
        some { s with itineraries := r, version := s.version + 1,
                      pc := .setIdle }
      | _ => none
  | .idleDone =>
    if s.aborted then none else
      match s.pc with
      | .setIdle => some { s with updating := false, pc := .sleeping }
      | _ => none
  | .sleepDone =>
    if s.aborted then none else
      match s.pc with
      | .sleeping =>
        some { s with pc := .startCycle, now := s.now + intervalSecs }
      | _ => none
  | .keyQuit => if s.done then none else some { s with done := true }
  | .abort => some { s with aborted := true }
  | .passTime d => some { s with now := s.now + d }

/-- Run a list of labels from an itinerary-view state. -/
def itinRun (ls : List (ItinLabel β)) (s : ItinState β) :
    Option (ItinState β) :=
  match ls with
  | [] => some s
  | l :: rest =>
    match itinStep l s with
    | some s1 => itinRun rest s1
    | none => none

/-- Recogniser for the labels executed by `itineraries_task` itself (as
opposed to render-loop, cancellation and clock labels). -/
def isItinTaskLabel : ItinLabel β → Bool
  | .keyQuit => false
  | .abort => false
  | .passTime _ => false
  | _ => true

/-- The label sequence of one whole successful poll cycle. -/
def successCycle (r : List β) : List (ItinLabel β) :=
  [.beginCycle, .fetchOk r, .doWrite, .idleDone, .sleepDone]

/-- The label sequence of a string of successful poll cycles with the given
responses. -/
def successCycles : List (List β) → List (ItinLabel β)
  | [] => []
  | r :: rs => successCycle r ++ successCycles rs

/-- C10: when the search view exits via Enter with selection `some i` and
`i` is within the current feature list, the returned feature is exactly the
list's `i`-th element and the unchecked indexing cannot reach the
out-of-bounds panic branch. -/
theorem exit_index_in_bounds_safe (feats : List α) (i : Nat) (h : i < feats.length) :
    getLocationExit (some i) feats = RustOutcome.ok (feats.get ⟨i, h⟩) ∧
    getLocationExit (some i) feats ≠ RustOutcome.outOfBounds := by
  constructor
  · simp [getLocationExit, List.getElem?_eq_getElem h]
  · simp [getLocationExit, List.getElem?_eq_getElem h]

/-- Witness for `exit_index_in_bounds_safe` at a concrete list and index. -/
theorem exit_index_in_bounds_safe_witness :
    getLocationExit (some 2) [5, 6, 7] = RustOutcome.ok 7 ∧
    getLocationExit (some 2) [5, 6, 7] ≠ RustOutcome.outOfBounds :=
  exit_index_in_bounds_safe [5, 6, 7] 2 (by decide)

/-- C8: Up and Down wrap over the current result count — Down on the last
index wraps to 0, Up on index 0 wraps to the last index, interior moves go
one step — and both are no-ops on an empty list. -/
theorem updown_wraparound (n i j : Nat) (sel : Option Nat)
    (hn : n ≠ 0) (hi : i + 1 < n) (hj0 : 0 < j) (hjn : j < n) :
    keyDown (some (n - 1)) n = some 0 ∧
    keyUp (some 0) n = some (n - 1) ∧
    keyDown (some i) n = some (i + 1) ∧
    keyUp (some j) n = some (j - 1) ∧
    keyUp sel 0 = sel ∧
    keyDown sel 0 = sel := by
  refine ⟨?_, ?_, ?_, ?_, rfl, rfl⟩
  · simp [keyDown, hn]
  · simp [keyUp, hn]
  · simp only [keyDown, if_neg hn]
    have : ¬ (n - 1 ≤ i) := by omega
    simp [this]
  · simp only [keyUp, if_neg hn]
    have : ¬ (j = 0) := by omega
    simp [this]

/-- Witness for `updown_wraparound`: the spec's scenario, three items with
selection `some 2`, Down wraps to `some 0`; plus Up-wrap and a no-op on the
empty list. -/
theorem updown_wraparound_witness :
    keyDown (some 2) 3 = some 0 ∧
    keyUp (some 0) 3 = some 2 ∧
    keyDown (some 0) 3 = some 1 ∧
    keyUp (some 1) 3 = some 0 ∧
    keyUp (some 1) 0 = some 1 ∧
    keyDown (some 1) 0 = some 1 := by
  have h := updown_wraparound 3 0 1 (some 1)
    (by decide) (by decide) (by decide) (by decide)
  exact ⟨h.1, h.2.1, h.2.2.1, h.2.2.2.1, h.2.2.2.2.1, h.2.2.2.2.2⟩

/-- C9: pressing Up or Down with no current selection and a non-empty
result list selects index 0 — both keys initialise the cursor to the first
item. -/
theorem updown_none_selects_first (n : Nat) (hn : n ≠ 0) :
    keyUp none n = some 0 ∧ keyDown none n = some 0 := by
  constructor
  · simp [keyUp, hn]
  · simp [keyDown, hn]

/-- Witness for `updown_none_selects_first` with three items. -/
theorem updown_none_selects_first_witness :
    keyUp none 3 = some 0 ∧ keyDown none 3 = some 0 :=
  updown_none_selects_first 3 (by decide)

/-- Inversion of a `keyChar` step. -/
theorem searchStep_keyChar_inv {s s1 : SearchState α} {c : Char}
    (h : searchStep (.keyChar c) s = some s1) :
    s.done = false ∧ s1 = { s with input := s.input.push c, notified := true } := by
  simp only [searchStep] at h
  split at h
  · simp at h
  · rename_i hd
    exact ⟨by simpa using hd, (Option.some.inj h).symm⟩

/-- Inversion of a `keyBackspace` step. -/
theorem searchStep_keyBackspace_inv {s s1 : SearchState α}
    (h : searchStep .keyBackspace s = some s1) :
    s.done = false ∧ s1 = { s with input := s.input.dropRight 1, notified := true } := by
  simp only [searchStep] at h
  split at h
  · simp at h
  · rename_i hd
    exact ⟨by simpa using hd, (Option.some.inj h).symm⟩

/-- Inversion of a `keyUp` step. -/
theorem searchStep_keyUp_inv {s s1 : SearchState α}
    (h : searchStep .keyUp s = some s1) :
    s.done = false ∧ s1 = { s with selection := keyUp s.selection s.features.length } := by
  simp only [searchStep] at h
  split at h
  · simp at h
  · rename_i hd
    exact ⟨by simpa using hd, (Option.some.inj h).symm⟩

/-- Inversion of a `keyDown` step. -/
theorem searchStep_keyDown_inv {s s1 : SearchState α}
    (h : searchStep .keyDown s = some s1) :
    s.done = false ∧ s1 = { s with selection := keyDown s.selection s.features.length } := by
  simp only [searchStep] at h
  split at h
  · simp at h
  · rename_i hd
    exact ⟨by simpa using hd, (Option.some.inj h).symm⟩

/-- Inversion of a `keyEnter` step. -/
theorem searchStep_keyEnter_inv {s s1 : SearchState α}
    (h : searchStep .keyEnter s = some s1) :
    s.done = false ∧ s1 = { s with done := true } := by
  simp only [searchStep] at h
  split at h
  · simp at h
  · rename_i hd
    exact ⟨by simpa using hd, (Option.some.inj h).symm⟩

/-- C7: in the search view, pressing Enter breaks out of the render loop
leaving the selection and the store untouched; the view then returns the
selected feature when the selection is in bounds, and surfaces the
"Missing location selection" error — not a panic and not a silent empty
result — when nothing is selected. -/
theorem enter_exit_behavior (s s' : SearchState α)
    (feats : List α) (i : Nat)
    (hstep : searchStep .keyEnter s = some s') (h : i < feats.length) :
    (s'.done = true ∧ s'.selection = s.selection ∧ s'.features = s.features) ∧
    getLocationExit none feats = RustOutcome.err "Missing location selection" ∧
    getLocationExit none feats ≠ RustOutcome.outOfBounds ∧
    (∀ a : α, getLocationExit none feats ≠ RustOutcome.ok a) ∧
    getLocationExit (some i) feats = RustOutcome.ok (feats.get ⟨i, h⟩) := by
  obtain ⟨-, rfl⟩ := searchStep_keyEnter_inv hstep
  refine ⟨⟨rfl, rfl, rfl⟩, rfl, by simp [getLocationExit],
    by simp [getLocationExit], ?_⟩
  simp [getLocationExit, List.getElem?_eq_getElem h]

/-- Witness for `enter_exit_behavior`: Enter pressed in a concrete state
with cursor `some 1` over a three-element store. -/
theorem enter_exit_behavior_witness :
    ((⟨"he", false, [10, 20, 30], 1, some 1, SearchPC.waitSignal, false, true,
        [[10, 20, 30]], 2⟩ : SearchState Nat).done = true ∧
      (⟨"he", false, [10, 20, 30], 1, some 1, SearchPC.waitSignal, false, true,
        [[10, 20, 30]], 2⟩ : SearchState Nat).selection = some 1 ∧
      (⟨"he", false, [10, 20, 30], 1, some 1, SearchPC.waitSignal, false, true,
        [[10, 20, 30]], 2⟩ : SearchState Nat).features = [10, 20, 30]) ∧
    getLocationExit none [10, 20, 30]
      = RustOutcome.err "Missing location selection" ∧
    getLocationExit (some 1) [10, 20, 30] = RustOutcome.ok 20 := by
  have h := enter_exit_behavior
    (⟨"he", false, [10, 20, 30], 1, some 1, SearchPC.waitSignal, false, false,
      [[10, 20, 30]], 2⟩ : SearchState Nat)
    (⟨"he", false, [10, 20, 30], 1, some 1, SearchPC.waitSignal, false, true,
      [[10, 20, 30]], 2⟩ : SearchState Nat)
    [10, 20, 30] 1 (by decide) (by decide)
  exact ⟨h.1, h.2.1, h.2.2.2.2⟩

/-- Inversion of a `wake` step. -/
theorem searchStep_wake_inv {s s1 : SearchState α}
    (h : searchStep .wake s = some s1) :
    s.aborted = false ∧ s.pc = .waitSignal ∧ s.notified = true ∧
    s1 = { s with notified := false, pc := .readInput } := by
  simp only [searchStep] at h
  split at h
  · simp at h
  · rename_i hab
    split at h
    · rename_i hpc
      split at h
      · rename_i hn
        exact ⟨by simpa using hab, hpc, hn, (Option.some.inj h).symm⟩
      · simp at h
    · simp at h

/-- Inversion of a `dispatch` step. -/
theorem searchStep_dispatch_inv {s s1 : SearchState α}
    (h : searchStep .dispatch s = some s1) :
    s.aborted = false ∧ s.pc = .readInput ∧ s1 = { s with pc := .fetch s.input } := by
  simp only [searchStep] at h
  split at h
  · simp at h
  · rename_i hab
    split at h
    · rename_i hpc
      exact ⟨by simpa using hab, hpc, (Option.some.inj h).symm⟩
    · simp at h

/-- Inversion of a `fetchOk` step. -/
theorem searchStep_fetchOk_inv {s s1 : SearchState α} {r : List α}
    (h : searchStep (.fetchOk r) s = some s1) :
    s.aborted = false ∧ (∃ q, s.pc = .fetch q) ∧
    s1 = { s with log := s.log ++ [r], features := r,
                  version := s.version + 1, pc := .cooldown } := by
  simp only [searchStep] at h
  split at h
  · simp at h
  · rename_i hab
    split at h
    · rename_i q hpc
      exact ⟨by simpa using hab, ⟨q, hpc⟩, (Option.some.inj h).symm⟩
    · simp at h

/-- Inversion of a `fetchErr` step. -/
theorem searchStep_fetchErr_inv {s s1 : SearchState α}
    (h : searchStep .fetchErr s = some s1) :
    s.aborted = false ∧ (∃ q, s.pc = .fetch q) ∧ s1 = { s with pc := .cooldown } := by
  simp only [searchStep] at h
  split at h
  · simp at h
  · rename_i hab
    split at h
    · rename_i q hpc
      exact ⟨by simpa using hab, ⟨q, hpc⟩, (Option.some.inj h).symm⟩
    · simp at h

/-- Inversion of a `sleepDone` step. -/
theorem searchStep_sleepDone_inv {s s1 : SearchState α}
    (h : searchStep .sleepDone s = some s1) :
    s.aborted = false ∧ s.pc = .cooldown ∧
    s1 = { s with pc := .waitSignal, now := s.now + cooldownSecs } := by
  simp only [searchStep] at h
  split at h
  · simp at h
  · rename_i hab
    split at h
    · rename_i hpc
      exact ⟨by simpa using hab, hpc, (Option.some.inj h).symm⟩
    · simp at h

/-- Inversion of an `abort` step. -/
theorem searchStep_abort_inv {s s1 : SearchState α}
    (h : searchStep .abort s = some s1) : s1 = { s with aborted := true } :=
  (Option.some.inj h).symm

/-- Inversion of a `passTime` step. -/
theorem searchStep_passTime_inv {s s1 : SearchState α} {d : Nat}
    (h : searchStep (.passTime d) s = some s1) : s1 = { s with now := s.now + d } :=
  (Option.some.inj h).symm

/-- Rate invariant of the debounced search task: along any run, every
dispatched fetch beyond the pending one costs at least one full cooldown of
wall time, because the loop forces a cooldown sleep between two dispatches. -/
theorem searchRun_dispatch_rate (ls : List (SearchLabel α)) (s s' : SearchState α)
    (h : searchRun ls s = some s') :
    cooldownSecs * ls.countP isDispatchL + s.now ≤ s'.now + dispatchSlack s.pc := by
  induction ls generalizing s with
  | nil =>
    simp only [searchRun, Option.some.injEq] at h
    subst h
    simp
  | cons l rest ih =>
    simp only [searchRun] at h
    cases hstep : searchStep l s with
    | none => rw [hstep] at h; simp at h
    | some s1 =>
      rw [hstep] at h
      have hrest := ih s1 h
      cases l with
      | keyChar c =>
        obtain ⟨-, rfl⟩ := searchStep_keyChar_inv hstep
        simpa [List.countP_cons, isDispatchL] using hrest
      | keyBackspace =>
        obtain ⟨-, rfl⟩ := searchStep_keyBackspace_inv hstep
        simpa [List.countP_cons, isDispatchL] using hrest
      | keyUp =>
        obtain ⟨-, rfl⟩ := searchStep_keyUp_inv hstep
        simpa [List.countP_cons, isDispatchL] using hrest
      | keyDown =>
        obtain ⟨-, rfl⟩ := searchStep_keyDown_inv hstep
        simpa [List.countP_cons, isDispatchL] using hrest
      | keyEnter =>
        obtain ⟨-, rfl⟩ := searchStep_keyEnter_inv hstep
        simpa [List.countP_cons, isDispatchL] using hrest
      | wake =>
        obtain ⟨-, hpc, -, rfl⟩ := searchStep_wake_inv hstep
        simp [List.countP_cons, isDispatchL, dispatchSlack, hpc,
          cooldownSecs] at hrest ⊢
        omega
      | dispatch =>
        obtain ⟨-, hpc, rfl⟩ := searchStep_dispatch_inv hstep
        simp [List.countP_cons, isDispatchL, dispatchSlack, hpc,
          cooldownSecs] at hrest ⊢
        omega
      | fetchOk r =>
        obtain ⟨-, ⟨q, hpc⟩, rfl⟩ := searchStep_fetchOk_inv hstep
        simp [List.countP_cons, isDispatchL, dispatchSlack, hpc,
          cooldownSecs] at hrest ⊢
        omega
      | fetchErr =>
        obtain ⟨-, ⟨q, hpc⟩, rfl⟩ := searchStep_fetchErr_inv hstep
        simp [List.countP_cons, isDispatchL, dispatchSlack, hpc,
          cooldownSecs] at hrest ⊢
        omega
      | sleepDone =>
        obtain ⟨-, hpc, rfl⟩ := searchStep_sleepDone_inv hstep
        simp [List.countP_cons, isDispatchL, dispatchSlack, hpc,
          cooldownSecs] at hrest ⊢
        omega
      | abort =>
        obtain rfl := searchStep_abort_inv hstep
        simpa [List.countP_cons, isDispatchL] using hrest
      | passTime d =>
        obtain rfl := searchStep_passTime_inv hstep
        simp [List.countP_cons, isDispatchL, cooldownSecs] at hrest ⊢
        omega

/-- C4: for any interleaving of rapid input edits, the debounced search
task issues at most one fetch per cooldown period — starting from the task
waiting for a signal, `k` dispatches need at least `(k - 1) * cooldownSecs`
of wall time — and the argument captured by a dispatch is the input
buffer's value at the moment of dispatch, not a value captured when the
notification was sent. -/
theorem debounce_rate_and_latest_input
    (ls : List (SearchLabel α)) (s s' sd sd' : SearchState α)
    (hpc : s.pc = .waitSignal)
    (hrun : searchRun ls s = some s')
    (hd : searchStep .dispatch sd = some sd') :
    cooldownSecs * ls.countP isDispatchL + s.now ≤ s'.now + cooldownSecs ∧
    sd'.pc = .fetch sd.input := by
  constructor
  · simpa [dispatchSlack, hpc] using searchRun_dispatch_rate ls s s' hrun
  · obtain ⟨-, -, rfl⟩ := searchStep_dispatch_inv hd
    rfl

/-- Witness for `debounce_rate_and_latest_input`: the spec's scenario —
`""` → `"K"` → `"Ke"` typed before the task wakes — dispatches exactly one
fetch, and its argument is the latest value `"Ke"`. -/
theorem debounce_rate_and_latest_input_witness :
    cooldownSecs * List.countP isDispatchL
        ([SearchLabel.keyChar 'K', SearchLabel.keyChar 'e',
          SearchLabel.wake, SearchLabel.dispatch] : List (SearchLabel Nat))
      + (initSearchState Nat).now
      ≤ (⟨"Ke", false, [], 0, none, SearchPC.fetch "Ke", false, false, [], 0⟩ :
          SearchState Nat).now + cooldownSecs ∧
    (⟨"Ke", false, [], 0, none, SearchPC.fetch "Ke", false, false, [], 0⟩ :
        SearchState Nat).pc
      = SearchPC.fetch (⟨"Ke", false, [], 0, none, SearchPC.readInput, false,
          false, [], 0⟩ : SearchState Nat).input :=
  debounce_rate_and_latest_input
    [SearchLabel.keyChar 'K', SearchLabel.keyChar 'e',
     SearchLabel.wake, SearchLabel.dispatch]
    (initSearchState Nat)
    ⟨"Ke", false, [], 0, none, SearchPC.fetch "Ke", false, false, [], 0⟩
    ⟨"Ke", false, [], 0, none, SearchPC.readInput, false, false, [], 0⟩
    ⟨"Ke", false, [], 0, none, SearchPC.fetch "Ke", false, false, [], 0⟩
    rfl (by decide) (by decide)

/-- Once cancellation of `locations_task` has taken effect, no run changes
the search view's store: its contents and ghost version are frozen. -/
theorem searchRun_aborted_frozen (ls : List (SearchLabel α)) (s s' : SearchState α)
    (hab : s.aborted = true) (h : searchRun ls s = some s') :
    s'.features = s.features ∧ s'.version = s.version := by
  induction ls generalizing s with
  | nil =>
    simp only [searchRun, Option.some.injEq] at h
    subst h
    exact ⟨rfl, rfl⟩
  | cons l rest ih =>
    simp only [searchRun] at h
    cases hstep : searchStep l s with
    | none => rw [hstep] at h; simp at h
    | some s1 =>
      rw [hstep] at h
      cases l with
      | keyChar c =>
        obtain ⟨-, rfl⟩ := searchStep_keyChar_inv hstep
        exact ih { s with input := s.input.push c, notified := true } hab h
      | keyBackspace =>
        obtain ⟨-, rfl⟩ := searchStep_keyBackspace_inv hstep
        exact ih { s with input := s.input.dropRight 1, notified := true } hab h
      | keyUp =>
        obtain ⟨-, rfl⟩ := searchStep_keyUp_inv hstep
        exact ih { s with selection := keyUp s.selection s.features.length } hab h
      | keyDown =>
        obtain ⟨-, rfl⟩ := searchStep_keyDown_inv hstep
        exact ih { s with selection := keyDown s.selection s.features.length } hab h
      | keyEnter =>
        obtain ⟨-, rfl⟩ := searchStep_keyEnter_inv hstep
        exact ih { s with done := true } hab h
      | wake =>
        obtain ⟨hab', -, -, -⟩ := searchStep_wake_inv hstep
        rw [hab] at hab'
        simp at hab'
      | dispatch =>
        obtain ⟨hab', -, -⟩ := searchStep_dispatch_inv hstep
        rw [hab] at hab'
        simp at hab'
      | fetchOk r =>
        obtain ⟨hab', -, -⟩ := searchStep_fetchOk_inv hstep
        rw [hab] at hab'
        simp at hab'
      | fetchErr =>
        obtain ⟨hab', -, -⟩ := searchStep_fetchErr_inv hstep
        rw [hab] at hab'
        simp at hab'
      | sleepDone =>
        obtain ⟨hab', -, -⟩ := searchStep_sleepDone_inv hstep
        rw [hab] at hab'
        simp at hab'
      | abort =>
        obtain rfl := searchStep_abort_inv hstep
        exact ih { s with aborted := true } rfl h
      | passTime d =>
        obtain rfl := searchStep_passTime_inv hstep
        exact ih { s with now := s.now + d } hab h

/-- C3 amended: when the background task replaces the search view's result
store, the render-loop selection is left unchanged — the source never
resets `locations_state` on a store write, so the cursor can keep pointing
at an index of the old list. -/
theorem selection_not_reset_on_replace (s s1 : SearchState α) (r : List α)
    (h : searchStep (.fetchOk r) s = some s1) :
    s1.selection = s.selection ∧ s1.version = s.version + 1 ∧ s1.features = r := by
  obtain ⟨-, -, rfl⟩ := searchStep_fetchOk_inv h
  exact ⟨rfl, rfl, rfl⟩

/-- Witness for `selection_not_reset_on_replace` at a concrete mid-fetch
state with cursor `some 2`. -/
theorem selection_not_reset_on_replace_witness :
    (⟨"q", false, [7], 2, some 2, SearchPC.cooldown, false, false, [[7]], 0⟩ :
        SearchState Nat).selection
      = (⟨"q", false, [1, 2, 3], 1, some 2, SearchPC.fetch "q", false, false,
          [], 0⟩ : SearchState Nat).selection ∧
    (⟨"q", false, [7], 2, some 2, SearchPC.cooldown, false, false, [[7]], 0⟩ :
        SearchState Nat).version
      = (⟨"q", false, [1, 2, 3], 1, some 2, SearchPC.fetch "q", false, false,
          [], 0⟩ : SearchState Nat).version + 1 ∧
    (⟨"q", false, [7], 2, some 2, SearchPC.cooldown, false, false, [[7]], 0⟩ :
        SearchState Nat).features = [7] := by
  have h := selection_not_reset_on_replace
    (⟨"q", false, [1, 2, 3], 1, some 2, SearchPC.fetch "q", false, false, [], 0⟩ :
      SearchState Nat)
    (⟨"q", false, [7], 2, some 2, SearchPC.cooldown, false, false, [[7]], 0⟩ :
      SearchState Nat)
    [7] (by decide)
  exact h

/-- Counterexample to C3 as stated: a reachable interleaving of the search
view in which the store version advances (a second fetch replaces three
features by one) while the selection, placed at index 1 by two Down
presses, is not reset before its next use — pressing Enter then indexes
the one-element list at index 1, reaching the out-of-bounds panic branch
that the claimed reset was supposed to prevent. -/
theorem selection_reset_on_replace_cex :
    searchRun
      [SearchLabel.keyChar 'a', SearchLabel.wake, SearchLabel.dispatch,
       SearchLabel.fetchOk [10, 20, 30], SearchLabel.keyDown,
       SearchLabel.keyDown, SearchLabel.keyChar 'b', SearchLabel.sleepDone,
       SearchLabel.wake, SearchLabel.dispatch, SearchLabel.fetchOk [99],
       SearchLabel.keyEnter]
      (initSearchState Nat)
      = some ⟨"ab", false, [99], 2, some 1, SearchPC.cooldown, false, true,
              [[10, 20, 30], [99]], 1⟩ ∧
    (some 1 : Option Nat) ≠ none ∧
    getLocationExit (some 1) [99] = RustOutcome.outOfBounds := by
  refine ⟨by decide, by decide, by decide⟩

/-- Inversion of a `beginCycle` step. -/
theorem itinStep_beginCycle_inv {s s1 : ItinState β}
    (h : itinStep .beginCycle s = some s1) :
    s.aborted = false ∧ s.pc = .startCycle ∧
    s1 = { s with log := s.log ++ ["Updating itineraries..."],
                  updating := true, pc := .inFlight } := by
  simp only [itinStep] at h
  split at h
  · simp at h
  · rename_i hab
    split at h
    · rename_i hpc
      exact ⟨by simpa using hab, hpc, (Option.some.inj h).symm⟩
    · simp at h

/-- Inversion of a `fetchOk` step. -/
theorem itinStep_fetchOk_inv {s s1 : ItinState β} {r : List β}
    (h : itinStep (.fetchOk r) s = some s1) :
    s.aborted = false ∧ s.pc = .inFlight ∧ s1 = { s with pc := .writeStore r } := by
  simp only [itinStep] at h
  split at h
  · simp at h
  · rename_i hab
    split at h
    · rename_i hpc
      exact ⟨by simpa using hab, hpc, (Option.some.inj h).symm⟩
    · simp at h

/-- Inversion of a `fetchErr` step. -/
theorem itinStep_fetchErr_inv {s s1 : ItinState β}
    (h : itinStep .fetchErr s = some s1) :
    s.aborted = false ∧ s.pc = .inFlight ∧ s1 = { s with pc := .doneErr } := by
  simp only [itinStep] at h
  split at h
  · simp at h
  · rename_i hab
    split at h
    · rename_i hpc
      exact ⟨by simpa using hab, hpc, (Option.some.inj h).symm⟩
    · simp at h

/-- Inversion of a `doWrite` step. -/
theorem itinStep_doWrite_inv {s s1 : ItinState β}
    (h : itinStep .doWrite s = some s1) :
    s.aborted = false ∧ ∃ r, s.pc = .writeStore r ∧
      s1 = { s with itineraries := r, version := s.version + 1,
                    pc := .setIdle } := by
  simp only [itinStep] at h
  split at h
  · simp at h
  · rename_i hab
    split at h
    · rename_i r hpc
      exact ⟨by simpa using hab, r, hpc, (Option.some.inj h).symm⟩
    · simp at h

/-- Inversion of an `idleDone` step. -/
theorem itinStep_idleDone_inv {s s1 : ItinState β}
    (h : itinStep .idleDone s = some s1) :
    s.aborted = false ∧ s.pc = .setIdle ∧
    s1 = { s with updating := false, pc := .sleeping } := by
  simp only [itinStep] at h
  split at h
  · simp at h
  · rename_i hab
    split at h
    · rename_i hpc
      exact ⟨by simpa using hab, hpc, (Option.some.inj h).symm⟩
    · simp at h

/-- Inversion of a `sleepDone` step. -/
theorem itinStep_sleepDone_inv {s s1 : ItinState β}
    (h : itinStep .sleepDone s = some s1) :
    s.aborted = false ∧ s.pc = .sleeping ∧
    s1 = { s with pc := .startCycle, now := s.now + intervalSecs } := by
  simp only [itinStep] at h
  split at h
  · simp at h
  · rename_i hab
    split at h
    · rename_i hpc
      exact ⟨by simpa using hab, hpc, (Option.some.inj h).symm⟩
    · simp at h

/-- Inversion of a `keyQuit` step. -/
theorem itinStep_keyQuit_inv {s s1 : ItinState β}
    (h : itinStep .keyQuit s = some s1) :
    s.done = false ∧ s1 = { s with done := true } := by
  simp only [itinStep] at h
  split at h
  · simp at h
  · rename_i hd
    exact ⟨by simpa using hd, (Option.some.inj h).symm⟩

/-- Inversion of an `abort` step. -/
theorem itinStep_abort_inv {s s1 : ItinState β}
    (h : itinStep .abort s = some s1) : s1 = { s with aborted := true } :=
  (Option.some.inj h).symm

/-- Inversion of a `passTime` step. -/
theorem itinStep_passTime_inv {s s1 : ItinState β} {d : Nat}
    (h : itinStep (.passTime d) s = some s1) : s1 = { s with now := s.now + d } :=
  (Option.some.inj h).symm

/-- After the `?` operators have propagated a fetch error out of the loop
(`pc = doneErr`), no task step is enabled ever again: `itineraries_task`
has returned. -/
theorem itinStep_doneErr_stuck (l : ItinLabel β) (s : ItinState β)
    (hpc : s.pc = .doneErr) (hl : isItinTaskLabel l = true) :
    itinStep l s = none := by
  cases l with
  | beginCycle => simp [itinStep, hpc]
  | fetchOk r => simp [itinStep, hpc]
  | fetchErr => simp [itinStep, hpc]
  | doWrite => simp [itinStep, hpc]
  | idleDone => simp [itinStep, hpc]
  | sleepDone => simp [itinStep, hpc]
  | keyQuit => simp [isItinTaskLabel] at hl
  | abort => simp [isItinTaskLabel] at hl
  | passTime d => simp [isItinTaskLabel] at hl

/-- Once cancellation of `itineraries_task` has taken effect, no run
changes the itinerary store: its contents and ghost version are frozen. -/
theorem itinRun_aborted_frozen (ls : List (ItinLabel β)) (s s' : ItinState β)
    (hab : s.aborted = true) (h : itinRun ls s = some s') :
    s'.itineraries = s.itineraries ∧ s'.version = s.version := by
  induction ls generalizing s with
  | nil =>
    simp only [itinRun, Option.some.injEq] at h
    subst h
    exact ⟨rfl, rfl⟩
  | cons l rest ih =>
    simp only [itinRun] at h
    cases hstep : itinStep l s with
    | none => rw [hstep] at h; simp at h
    | some s1 =>
      rw [hstep] at h
      cases l with
      | beginCycle =>
        obtain ⟨hab', -, -⟩ := itinStep_beginCycle_inv hstep
        rw [hab] at hab'
        simp at hab'
      | fetchOk r =>
        obtain ⟨hab', -, -⟩ := itinStep_fetchOk_inv hstep
        rw [hab] at hab'
        simp at hab'
      | fetchErr =>
        obtain ⟨hab', -, -⟩ := itinStep_fetchErr_inv hstep
        rw [hab] at hab'
        simp at hab'
      | doWrite =>
        obtain ⟨hab', -⟩ := itinStep_doWrite_inv hstep
        rw [hab] at hab'
        simp at hab'
      | idleDone =>
        obtain ⟨hab', -, -⟩ := itinStep_idleDone_inv hstep
        rw [hab] at hab'
        simp at hab'
      | sleepDone =>
        obtain ⟨hab', -, -⟩ := itinStep_sleepDone_inv hstep
        rw [hab] at hab'
        simp at hab'
      | keyQuit =>
        obtain ⟨-, rfl⟩ := itinStep_keyQuit_inv hstep
        exact ih { s with done := true } hab h
      | abort =>
        obtain rfl := itinStep_abort_inv hstep
        exact ih { s with aborted := true } rfl h
      | passTime d =>
        obtain rfl := itinStep_passTime_inv hstep
        exact ih { s with now := s.now + d } hab h

/-- Running a concatenation of label lists is running them in sequence. -/
theorem itinRun_append (a b : List (ItinLabel β)) (s : ItinState β) :
    itinRun (a ++ b) s = (itinRun a s).bind (fun s1 => itinRun b s1) := by
  induction a generalizing s with
  | nil => simp [itinRun]
  | cons l rest ih =>
    simp only [List.cons_append, itinRun]
    cases itinStep l s with
    | none => simp
    | some s1 => simpa using ih s1

/-- One successful poll cycle from the resting point of the loop: it logs,
replaces the store (version bump), clears the flag and advances the clock
by exactly one interval, returning to the resting point. -/
theorem itinRun_successCycle (s : ItinState β) (r : List β)
    (hpc : s.pc = .startCycle) (hab : s.aborted = false) :
    itinRun (successCycle r) s
      = some { s with log := s.log ++ ["Updating itineraries..."],
                      itineraries := r, version := s.version + 1,
                      updating := false, pc := .startCycle,
                      now := s.now + intervalSecs } := by
  simp [successCycle, itinRun, itinStep, hpc, hab]

/-- A string of successful poll cycles: each replaces the store once and
takes exactly one interval, so after `n` cycles the version has grown by
`n` and the clock by `n * intervalSecs`, with the task back at the resting
point. -/
theorem itinRun_successCycles (rs : List (List β)) (s : ItinState β)
    (hpc : s.pc = .startCycle) (hab : s.aborted = false) :
    ∃ s', itinRun (successCycles rs) s = some s' ∧
      s'.pc = .startCycle ∧ s'.aborted = false ∧
      s'.version = s.version + rs.length ∧
      s'.now = s.now + intervalSecs * rs.length := by
  induction rs generalizing s with
  | nil =>
    exact ⟨s, rfl, hpc, hab, by simp, by simp⟩
  | cons r rs ih =>
    rw [successCycles, itinRun_append, itinRun_successCycle s r hpc hab]
    obtain ⟨s', hrun, hpc', hab', hv, hn⟩ :=
      ih { s with log := s.log ++ ["Updating itineraries..."],
                  itineraries := r, version := s.version + 1,
                  updating := false, pc := .startCycle,
                  now := s.now + intervalSecs } rfl hab
    refine ⟨s', by simpa using hrun, hpc', hab', ?_, ?_⟩
    · simpa [Nat.add_assoc, Nat.add_comm, Nat.add_left_comm] using hv
    · simp only at hn
      rw [hn]
      simp [intervalSecs]
      omega

/-- C5: once cancellation of a view's background task has taken effect, no
continuation of the execution changes that view's shared result store: both
its contents and its ghost version counter are exactly what they were at
cancellation, for the search view and the itinerary view alike. -/
theorem abort_stops_store_writes
    (ls : List (SearchLabel α)) (ils : List (ItinLabel β))
    (s s' : SearchState α) (si si' : ItinState β)
    (hab : s.aborted = true) (hiab : si.aborted = true)
    (h : searchRun ls s = some s') (hi : itinRun ils si = some si') :
    (s'.features = s.features ∧ s'.version = s.version) ∧
    (si'.itineraries = si.itineraries ∧ si'.version = si.version) :=
  ⟨searchRun_aborted_frozen ls s s' hab h,
   itinRun_aborted_frozen ils si si' hiab hi⟩

/-- Witness for `abort_stops_store_writes`: concrete cancelled states of
both views, with time passing and render events still occurring. -/
theorem abort_stops_store_writes_witness :
    ((⟨"ab", false, [4, 5], 7, some 0, SearchPC.waitSignal, true, false, [],
        9⟩ : SearchState Nat).features = [4, 5] ∧
      (7 : Nat) = 7) ∧
    ((⟨[3], 2, false, ItinPC.sleeping, true, false, [], 60⟩ :
        ItinState Nat).itineraries = [3] ∧
      (2 : Nat) = 2) := by
  have h := abort_stops_store_writes
    [SearchLabel.passTime 5, SearchLabel.keyUp]
    [ItinLabel.passTime 100, ItinLabel.keyQuit]
    (⟨"ab", false, [4, 5], 7, some 0, SearchPC.waitSignal, true, false, [], 9⟩ :
      SearchState Nat)
    (⟨"ab", false, [4, 5], 7, some 1, SearchPC.waitSignal, true, false, [], 14⟩ :
      SearchState Nat)
    (⟨[3], 2, false, ItinPC.sleeping, true, false, [], 60⟩ : ItinState Nat)
    (⟨[3], 2, false, ItinPC.sleeping, true, true, [], 160⟩ : ItinState Nat)
    rfl rfl (by decide) (by decide)
  exact ⟨⟨h.1.1, rfl⟩, ⟨h.2.1, rfl⟩⟩

/-- C1 amended: a failed fetch cycle of the debounced search task is
swallowed — the stored features, the ghost version and the log are all
unchanged and the task proceeds to its cooldown, so it keeps running — but
the failure is not logged (the `tracing::info!` call sits in the `Ok`
branch only).  In the periodic poll task a failed cycle is not swallowed:
the `?` operators propagate the error out of the loop, the store is
retained but the task finishes and no task step is ever enabled again. -/
theorem fetch_failure_behavior (s : SearchState α) (q : String)
    (si : ItinState β)
    (hpc : s.pc = .fetch q) (hab : s.aborted = false)
    (hipc : si.pc = .inFlight) (hiab : si.aborted = false) :
    searchStep .fetchErr s = some { s with pc := .cooldown } ∧
    itinStep .fetchErr si = some { si with pc := .doneErr } ∧
    (∀ l : ItinLabel β, isItinTaskLabel l = true →
      itinStep l { si with pc := .doneErr } = none) := by
  refine ⟨?_, ?_, ?_⟩
  · simp [searchStep, hab, hpc]
  · simp [itinStep, hiab, hipc]
  · intro l hl
    exact itinStep_doneErr_stuck l _ rfl hl

/-- Witness for `fetch_failure_behavior` at concrete mid-fetch states of
both views. -/
theorem fetch_failure_behavior_witness :
    searchStep SearchLabel.fetchErr
        (⟨"ab", false, [1], 1, none, SearchPC.fetch "ab", false, false,
          [[1]], 3⟩ : SearchState Nat)
      = some ⟨"ab", false, [1], 1, none, SearchPC.cooldown, false, false,
          [[1]], 3⟩ ∧
    itinStep ItinLabel.fetchErr
        (⟨[42], 3, true, ItinPC.inFlight, false, false,
          ["Updating itineraries..."], 120⟩ : ItinState Nat)
      = some ⟨[42], 3, true, ItinPC.doneErr, false, false,
          ["Updating itineraries..."], 120⟩ := by
  have h := fetch_failure_behavior
    (⟨"ab", false, [1], 1, none, SearchPC.fetch "ab", false, false, [[1]], 3⟩ :
      SearchState Nat)
    "ab"
    (⟨[42], 3, true, ItinPC.inFlight, false, false,
      ["Updating itineraries..."], 120⟩ : ItinState Nat)
    rfl rfl rfl rfl
  exact ⟨h.1, h.2.1⟩

/-- Counterexample to C1 as stated: in a reachable execution of the search
view a fetch fails; the cycle is skipped and the task keeps running (it
wakes up again for the next edit), but nothing is logged — the log is
still empty after the failure, while the claim says every failed cycle is
logged.  And in the itinerary view, a fetch failure ends the background
task: from the resulting state neither the next cycle nor the sleep can
ever run, while the claim says the failure never terminates the task. -/
theorem fetch_failure_swallowed_cex :
    searchRun
      [SearchLabel.keyChar 'a', SearchLabel.wake, SearchLabel.dispatch,
       SearchLabel.fetchErr, SearchLabel.sleepDone, SearchLabel.keyChar 'b',
       SearchLabel.wake]
      (initSearchState Nat)
      = some ⟨"ab", false, [], 0, none, SearchPC.readInput, false, false,
              [], 1⟩ ∧
    itinStep ItinLabel.fetchErr
        (⟨[42], 3, true, ItinPC.inFlight, false, false,
          ["Updating itineraries..."], 120⟩ : ItinState Nat)
      = some ⟨[42], 3, true, ItinPC.doneErr, false, false,
          ["Updating itineraries..."], 120⟩ ∧
    itinStep ItinLabel.beginCycle
        (⟨[42], 3, true, ItinPC.doneErr, false, false,
          ["Updating itineraries..."], 120⟩ : ItinState Nat) = none ∧
    itinStep ItinLabel.sleepDone
        (⟨[42], 3, true, ItinPC.doneErr, false, false,
          ["Updating itineraries..."], 120⟩ : ItinState Nat) = none := by
  refine ⟨by decide, by decide, by decide, by decide⟩

/-- C2 amended: each poll cycle sets the `updating` flag immediately before
issuing the request, and the render loop's status paragraph reflects the
flag on every frame; but the flag returns to idle only on the success path
(after the store write).  When the fetch fails, the `?` returns out of the
loop before `updating.store(false)` runs, so the task terminates with the
flag stuck at `fetching` and the step that would clear it is never enabled
again. -/
theorem fetch_status_flag (s : ItinState β) (r : List β)
    (hpc : s.pc = .startCycle) (hab : s.aborted = false) :
    ∃ s1, itinStep .beginCycle s = some s1 ∧
      s1.updating = true ∧ s1.pc = .inFlight ∧
      statusIndicator s1.updating = "Updating..." ∧
      (∃ s2, itinRun [.fetchOk r, .doWrite, .idleDone] s1 = some s2 ∧
        s2.updating = false ∧ statusIndicator s2.updating = "Idle") ∧
      (∃ s3, itinStep .fetchErr s1 = some s3 ∧ s3.updating = true ∧
        s3.pc = .doneErr ∧ statusIndicator s3.updating = "Updating..." ∧
        ∀ l : ItinLabel β, isItinTaskLabel l = true →
          itinStep l s3 = none) := by
  refine ⟨{ s with log := s.log ++ ["Updating itineraries..."],
                   updating := true, pc := .inFlight },
    by simp [itinStep, hpc, hab], rfl, rfl, rfl, ?_, ?_⟩
  · refine ⟨{ s with log := s.log ++ ["Updating itineraries..."],
                     itineraries := r, version := s.version + 1,
                     updating := false, pc := .sleeping },
      by simp [itinRun, itinStep, hab], rfl, rfl⟩
  · refine ⟨{ s with log := s.log ++ ["Updating itineraries..."],
                     updating := true, pc := .doneErr },
      by simp [itinStep, hab], rfl, rfl, rfl, ?_⟩
    intro l hl
    exact itinStep_doneErr_stuck l _ rfl hl

/-- Witness for `fetch_status_flag` from the initial itinerary-view
state. -/
theorem fetch_status_flag_witness :
    ∃ s1, itinStep ItinLabel.beginCycle (initItinState Nat) = some s1 ∧
      s1.updating = true ∧ s1.pc = ItinPC.inFlight ∧
      statusIndicator s1.updating = "Updating..." ∧
      (∃ s2, itinRun [ItinLabel.fetchOk [7], ItinLabel.doWrite,
          ItinLabel.idleDone] s1 = some s2 ∧
        s2.updating = false ∧ statusIndicator s2.updating = "Idle") ∧
      (∃ s3, itinStep ItinLabel.fetchErr s1 = some s3 ∧ s3.updating = true ∧
        s3.pc = ItinPC.doneErr ∧
        statusIndicator s3.updating = "Updating..." ∧
        ∀ l : ItinLabel Nat, isItinTaskLabel l = true →
          itinStep l s3 = none) :=
  fetch_status_flag (initItinState Nat) [7] rfl rfl

/-- Counterexample to C2 as stated: running one cycle that fails from the
initial itinerary-view state leaves `updating = true` — the status
indicator shows "Updating..." — and the `idleDone` step that would reset
the flag to idle is not enabled in the resulting state, while the claim
says the flag returns to idle after every cycle, success or failure. -/
theorem fetch_status_flag_cex :
    itinRun [ItinLabel.beginCycle, ItinLabel.fetchErr] (initItinState Nat)
      = some ⟨[], 0, true, ItinPC.doneErr, false, false,
              ["Updating itineraries..."], 0⟩ ∧
    statusIndicator
        (⟨[], 0, true, ItinPC.doneErr, false, false,
          ["Updating itineraries..."], 0⟩ : ItinState Nat).updating
      = "Updating..." ∧
    itinStep ItinLabel.idleDone
        (⟨[], 0, true, ItinPC.doneErr, false, false,
          ["Updating itineraries..."], 0⟩ : ItinState Nat) = none := by
  refine ⟨by decide, by decide, by decide⟩

/-- C6 amended: the poll task begins its first fetch cycle immediately on
creation (no initial sleep, clock at 0), and every successful cycle
replaces the stored result set once and sleeps exactly 60 seconds before
the next, so `n` back-to-back successful cycles leave the version at `n`
and the clock at `60 * n` — fetches at t = 0, 60, 120, with no backoff and
no retry limit on the success path.  The loop does not, however, repeat
unconditionally until cancelled: a failed fetch terminates the task. -/
theorem poll_cycle_timing (rs : List (List β)) (si : ItinState β)
    (hipc : si.pc = .inFlight) (hiab : si.aborted = false) :
    (initItinState β).pc = .startCycle ∧ (initItinState β).now = 0 ∧
    (∃ s', itinRun (successCycles rs) (initItinState β) = some s' ∧
      s'.pc = .startCycle ∧ s'.version = rs.length ∧
      s'.now = intervalSecs * rs.length) ∧
    itinStep .fetchErr si = some { si with pc := .doneErr } ∧
    (∀ l : ItinLabel β, isItinTaskLabel l = true →
      itinStep l { si with pc := .doneErr } = none) := by
  refine ⟨rfl, rfl, ?_, ?_, ?_⟩
  · obtain ⟨s', hrun, hpc', -, hv, hn⟩ :=
      itinRun_successCycles rs (initItinState β) rfl rfl
    exact ⟨s', hrun, hpc', by simpa [initItinState] using hv,
      by simpa [initItinState] using hn⟩
  · simp [itinStep, hiab, hipc]
  · intro l hl
    exact itinStep_doneErr_stuck l _ rfl hl

/-- Witness for `poll_cycle_timing`: three successful cycles from task
creation, and a concrete in-flight state for the failure conjunct. -/
theorem poll_cycle_timing_witness :
    (initItinState Nat).pc = ItinPC.startCycle ∧
    (initItinState Nat).now = 0 ∧
    (∃ s', itinRun (successCycles [[1], [2], [3]]) (initItinState Nat)
        = some s' ∧
      s'.pc = ItinPC.startCycle ∧ s'.version = 3 ∧
      s'.now = intervalSecs * 3) ∧
    itinStep ItinLabel.fetchErr
        (⟨[], 0, true, ItinPC.inFlight, false, false,
          ["Updating itineraries..."], 0⟩ : ItinState Nat)
      = some ⟨[], 0, true, ItinPC.doneErr, false, false,
          ["Updating itineraries..."], 0⟩ ∧
    (∀ l : ItinLabel Nat, isItinTaskLabel l = true →
      itinStep l (⟨[], 0, true, ItinPC.doneErr, false, false,
        ["Updating itineraries..."], 0⟩ : ItinState Nat) = none) := by
  have h := poll_cycle_timing [[1], [2], [3]]
    (⟨[], 0, true, ItinPC.inFlight, false, false,
      ["Updating itineraries..."], 0⟩ : ItinState Nat)
    rfl rfl
  exact ⟨h.1, h.2.1, by simpa using h.2.2.1, h.2.2.2.1, h.2.2.2.2⟩

/-- Counterexample to C6 as stated: from task creation, one cycle whose
fetch fails cannot sleep and repeat — the run `fetch, fail, sleep` is not
even executable, and after `fetch, fail` the task is finished although it
was never cancelled (`aborted = false`), while the claim says the cycle
repeats indefinitely until externally cancelled with no retry limit. -/
theorem poll_cycle_repeat_cex :
    itinRun [ItinLabel.beginCycle, ItinLabel.fetchErr, ItinLabel.sleepDone]
        (initItinState Nat) = none ∧
    itinRun [ItinLabel.beginCycle, ItinLabel.fetchErr] (initItinState Nat)
      = some ⟨[], 0, true, ItinPC.doneErr, false, false,
              ["Updating itineraries..."], 0⟩ ∧
    (⟨[], 0, true, ItinPC.doneErr, false, false,
        ["Updating itineraries..."], 0⟩ : ItinState Nat).aborted = false ∧
    itinStep ItinLabel.beginCycle
        (⟨[], 0, true, ItinPC.doneErr, false, false,
          ["Updating itineraries..."], 0⟩ : ItinState Nat) = none := by
  refine ⟨by decide, by decide, by decide, by decide⟩
